import Mathlib

/-!
Verification of the atv-companion TypeScript SDK (Apple TV Companion protocol
client) against its natural-language specification.

The development shallowly embeds the relevant source files:
  * `src/support/tlv8.ts` — TLV8 codec (`readTlv`, `writeTlv`);
  * `src/support/opack.ts` — OPACK codec (`pack`, `unpack`) with the
    back-reference deduplication tables;
  * `src/support/chacha20.ts` — `Chacha20Cipher` nonce-counter state machine
    (the AEAD primitive itself is an external library and is kept abstract as a
    function parameter);
  * `connection.ts` — `CompanionConnection.send` frame writer and the transport
    `FrameType` enum;
  * `src/types.ts` — the second, transport-unused `FrameType` enum;
  * `auth/srp.ts` — `SRPAuthHandler.verify1` and `SRPAuthHandler.step4`
    (Ed25519 / X25519 / HKDF are external library primitives, kept abstract).

Buffers are modelled as `List Nat` of byte values.  JavaScript `while` loops and
the recursive descent of the OPACK codec are modelled with an explicit
step-count (fuel) first argument that is seeded strictly above the number of
iterations the source performs, so every definition is structurally recursive
and kernel-computable; the fuel-exhaustion branches are unreachable for the
seeded values.
-/

namespace AtvCompanion

/-! # TLV8 codec (src/support/tlv8.ts) -/

/-- One step of `result.set(tag, ...)` in `readTlv`: a JavaScript `Map` keeps
the original insertion position when a key is updated, and `readTlv`
concatenates a repeated tag onto the value already stored. -/
def insertTlv (result : List (Nat × List Nat)) (tag : Nat) (value : List Nat) :
    List (Nat × List Nat) :=
  match result with
  | [] => [(tag, value)]
  | (t, v) :: rest =>
    if t = tag then (t, v ++ value) :: rest else (t, v) :: insertTlv rest tag value

/-- The `while (pos < data.length)` loop of `readTlv`.  Each iteration advances
`pos` by at least 2, so `data.length` steps of fuel always suffice.  With a
single byte left, the JavaScript length read `data[pos + 1]` yields `undefined`,
the value slice is empty and `pos += 2 + undefined` is `NaN`, ending the loop:
the final tag is mapped to the empty value.  A declared length larger than the
remaining bytes is silently clamped by `Buffer.subarray`. -/
def readTlvAux : Nat → List Nat → List (Nat × List Nat) → List (Nat × List Nat)
  | 0, _, result => result
  | _ + 1, [], result => result
  | _ + 1, [tag], result => insertTlv result tag []
  | fuel + 1, tag :: len :: rest, result =>
    readTlvAux fuel (rest.drop len) (insertTlv result tag (rest.take len))

/-- `readTlv` from src/support/tlv8.ts: parse TLV8 bytes into an
insertion-ordered map, concatenating values of repeated tags. -/
def readTlv (data : List Nat) : List (Nat × List Nat) :=
  readTlvAux data.length data []

/-- The chunking `while (remaining > 0 || pos === 0)` loop of `writeTlv` for a
single entry.  `fuel = v.length + 1` always exceeds the number of chunks. -/
def writeChunksAux (tag : Nat) : Nat → List Nat → List Nat
  | 0, _ => []
  | fuel + 1, v =>
    if v.length ≤ 255 then tag % 256 :: v.length :: v
    else tag % 256 :: 255 :: (v.take 255 ++ writeChunksAux tag fuel (v.drop 255))

/-- Emit the TLV triples of one `(tag, value)` entry, splitting values longer
than 255 bytes into 255-byte chunks sharing the tag. -/
def writeChunks (tag : Nat) (v : List Nat) : List Nat :=
  writeChunksAux tag (v.length + 1) v

/-- `writeTlv` from src/support/tlv8.ts: serialize an insertion-ordered map of
`(tag, value)` entries. -/
def writeTlv (entries : List (Nat × List Nat)) : List Nat :=
  (entries.map fun p => writeChunks p.1 p.2).flatten

/-- `Map.get` on the parsed TLV map. -/
def lookupTlv (m : List (Nat × List Nat)) (tag : Nat) : Option (List Nat) :=
  (m.find? fun p => p.1 == tag).map Prod.snd

/-! ## TLV8 round-trip proof infrastructure -/

theorem take_append_len {α : Type} (l₁ l₂ : List α) (n : Nat) (h : l₁.length = n) :
    (l₁ ++ l₂).take n = l₁ := by
  subst h
  induction l₁ with
  | nil => simp
  | cons a l ih => simp [ih]

theorem drop_append_len {α : Type} (l₁ l₂ : List α) (n : Nat) (h : l₁.length = n) :
    (l₁ ++ l₂).drop n = l₂ := by
  subst h
  induction l₁ with
  | nil => simp
  | cons a l ih => simp [ih]

/-- The fuel argument of `readTlvAux` is irrelevant once it covers the input
length (each loop iteration consumes at least two bytes). -/
theorem readTlvAux_congr (f : Nat) :
    ∀ (g : Nat) (data : List Nat) (result : List (Nat × List Nat)),
      data.length ≤ f → data.length ≤ g →
      readTlvAux f data result = readTlvAux g data result := by
  induction f with
  | zero =>
    intro g data result hf _
    have : data = [] := List.eq_nil_of_length_eq_zero (Nat.le_zero.mp hf)
    subst this
    cases g <;> rfl
  | succ f ih =>
    intro g data result hf hg
    match data, g with
    | [], g => cases g <;> rfl
    | [tag], g + 1 => rfl
    | tag :: len :: rest, g + 1 =>
      simp only [readTlvAux]
      apply ih
      · simp only [List.length_drop]
        simp only [List.length_cons] at hf
        omega
      · simp only [List.length_drop]
        simp only [List.length_cons] at hg
        omega

/-- Unfold one iteration of the `readTlv` loop at the natural fuel. -/
theorem readTlvAux_step (tag len : Nat) (rest : List Nat)
    (result : List (Nat × List Nat)) :
    readTlvAux (tag :: len :: rest).length (tag :: len :: rest) result
      = readTlvAux (rest.drop len).length (rest.drop len)
          (insertTlv result tag (rest.take len)) := by
  simp only [List.length_cons, readTlvAux]
  apply readTlvAux_congr
  · simp only [List.length_drop]; omega
  · exact Nat.le_refl _

theorem insertTlv_insertTlv (result : List (Nat × List Nat)) (tag : Nat)
    (a b : List Nat) :
    insertTlv (insertTlv result tag a) tag b = insertTlv result tag (a ++ b) := by
  induction result with
  | nil => simp [insertTlv]
  | cons p rest ih =>
    obtain ⟨t, v⟩ := p
    by_cases h : t = tag
    · simp [insertTlv, h]
    · simp [insertTlv, h, ih]

theorem insertTlv_fresh (result : List (Nat × List Nat)) (tag : Nat) (v : List Nat)
    (h : ∀ p ∈ result, p.1 ≠ tag) : insertTlv result tag v = result ++ [(tag, v)] := by
  induction result with
  | nil => rfl
  | cons p rest ih =>
    obtain ⟨t, w⟩ := p
    have ht : t ≠ tag := h (t, w) (List.mem_cons_self _ _)
    simp only [insertTlv, if_neg ht, List.cons_append, List.cons.injEq, true_and]
    exact ih fun q hq => h q (List.mem_cons_of_mem _ hq)

/-- Reading back the chunks written for a single entry merges them into one
`insertTlv` of the whole value. -/
theorem readTlvAux_writeChunksAux (fuel : Nat) :
    ∀ (tag : Nat) (v rest : List Nat) (result : List (Nat × List Nat)),
      tag < 256 → v.length < fuel →
      readTlvAux (writeChunksAux tag fuel v ++ rest).length
          (writeChunksAux tag fuel v ++ rest) result
        = readTlvAux rest.length rest (insertTlv result tag v) := by
  induction fuel with
  | zero => intro tag v rest result _ hv; omega
  | succ fuel ih =>
    intro tag v rest result htag hv
    by_cases hlen : v.length ≤ 255
    · have hmod : tag % 256 = tag := Nat.mod_eq_of_lt htag
      simp only [writeChunksAux, if_pos hlen, hmod, List.cons_append]
      rw [readTlvAux_step]
      rw [take_append_len v rest v.length rfl, drop_append_len v rest v.length rfl]
    · have hmod : tag % 256 = tag := Nat.mod_eq_of_lt htag
      have htake : (v.take 255).length = 255 := by
        simp only [List.length_take]
        omega
      simp only [writeChunksAux, if_neg hlen, hmod, List.cons_append, List.append_assoc]
      rw [readTlvAux_step]
      rw [take_append_len (v.take 255) _ 255 htake, drop_append_len (v.take 255) _ 255 htake]
      rw [ih tag (v.drop 255) rest (insertTlv result tag (v.take 255)) htag
        (by simp only [List.length_drop]; omega)]
      rw [insertTlv_insertTlv, List.take_append_drop]

/-- Reading back a full `writeTlv` encoding appends the entries to the
accumulated result, provided the entry tags are bytes, pairwise distinct, and
absent from the accumulator. -/
theorem readTlvAux_writeTlv (entries : List (Nat × List Nat)) :
    ∀ result : List (Nat × List Nat),
      (∀ p ∈ entries, p.1 < 256) →
      (entries.map Prod.fst).Nodup →
      (∀ p ∈ entries, ∀ q ∈ result, q.1 ≠ p.1) →
      readTlvAux (writeTlv entries).length (writeTlv entries) result
        = result ++ entries := by
  induction entries with
  | nil => intro result _ _ _; simp [writeTlv, readTlvAux]
  | cons e rest ih =>
    intro result htags hnodup hdisj
    obtain ⟨t, v⟩ := e
    have ht : t < 256 := htags (t, v) (List.mem_cons_self _ _)
    have hwrite : writeTlv ((t, v) :: rest) = writeChunks t v ++ writeTlv rest := by
      simp [writeTlv]
    rw [hwrite]
    unfold writeChunks
    rw [readTlvAux_writeChunksAux (v.length + 1) t v (writeTlv rest) result ht
      (Nat.lt_succ_self _)]
    rw [insertTlv_fresh result t v
      (fun q hq => hdisj (t, v) (List.mem_cons_self _ _) q hq)]
    rw [ih (result ++ [(t, v)])
      (fun p hp => htags p (List.mem_cons_of_mem _ hp))
      (by
        simp only [List.map_cons, List.nodup_cons] at hnodup
        exact hnodup.2)
      (by
        intro p hp q hq
        rcases List.mem_append.mp hq with hq | hq
        · exact hdisj p (List.mem_cons_of_mem _ hp) q hq
        · have hq1 : q = (t, v) := by simpa using hq
          subst hq1
          simp only [List.map_cons, List.nodup_cons] at hnodup
          intro heq
          have hmem : p.1 ∈ List.map Prod.fst rest := List.mem_map_of_mem Prod.fst hp
          rw [← heq] at hmem
          exact hnodup.1 hmem)]
    simp

/-- Claim C3: for every TLV multimap `M` mapping byte tags to byte-string
values, with total encoded size at most 10 MB, reading back the written
encoding returns `M` exactly: `readTlv (writeTlv M) = M`, with values longer
than 255 bytes reassembled by per-tag concatenation of consecutive chunks. -/
theorem claim_C3_tlv_roundtrip (entries : List (Nat × List Nat))
    (htags : ∀ p ∈ entries, p.1 < 256)
    (hnodup : (entries.map Prod.fst).Nodup)
    (_hsize : (writeTlv entries).length ≤ 10 * 1024 * 1024) :
    readTlv (writeTlv entries) = entries := by
  unfold readTlv
  rw [readTlvAux_writeTlv entries [] htags hnodup (by intro p _ q hq; cases hq)]
  rfl

set_option maxRecDepth 10000 in
/-- Witness for claim C3 at a concrete multimap, including an entry longer
than 255 bytes which is split into chunks and reassembled. -/
theorem claim_C3_tlv_roundtrip_witness :
    (∀ p ∈ [(10, [0x31, 0x32, 0x33]), (2, List.replicate 256 0x31)], p.1 < 256) ∧
    ([(10, [0x31, 0x32, 0x33]), (2, List.replicate 256 0x31)].map Prod.fst).Nodup ∧
    (writeTlv [(10, [0x31, 0x32, 0x33]), (2, List.replicate 256 0x31)]).length
      ≤ 10 * 1024 * 1024 ∧
    readTlv (writeTlv [(10, [0x31, 0x32, 0x33]), (2, List.replicate 256 0x31)])
      = [(10, [0x31, 0x32, 0x33]), (2, List.replicate 256 0x31)] :=
  ⟨by decide, by decide, by decide,
    claim_C3_tlv_roundtrip _ (by decide) (by decide) (by decide)⟩

/-- Claim C8 (counterexample): the source `readTlv` does not fail on a
truncated triple.  With a single byte `[0x0a]` left at a triple boundary it
returns the map `{10 ↦ empty}`, and with declared length 5 but only one value
byte present it returns the map `{10 ↦ [1]}` — a result map in both cases,
never a parse error. -/
theorem claim_C8_counterexample :
    readTlv [0x0a] = [(0x0a, [])] ∧ readTlv [0x0a, 5, 1] = [(0x0a, [1])] := by
  constructor <;> rfl

/-- Claim C8 (amended): `readTlv` performs no truncation check.  A triple
boundary with a single remaining byte maps that tag to the empty value, and a
declared length exceeding the remaining bytes yields exactly the remaining
bytes; a result map is always returned. -/
theorem claim_C8_amended (tag len : Nat) (v : List Nat) (hv : v.length < len) :
    readTlv (tag :: len :: v) = [(tag, v)] ∧ readTlv [tag] = [(tag, [])] := by
  constructor
  · unfold readTlv
    rw [readTlvAux_step]
    rw [List.take_of_length_le (Nat.le_of_lt hv), List.drop_eq_nil_of_le (Nat.le_of_lt hv)]
    rfl
  · rfl

/-- Witness for the amended claim C8 at a concrete truncated input. -/
theorem claim_C8_amended_witness :
    ([2, 3] : List Nat).length < 9 ∧
    readTlv [7, 9, 2, 3] = [(7, [2, 3])] ∧ readTlv [7] = [(7, [])] :=
  ⟨by decide, claim_C8_amended 7 9 [2, 3] (by decide)⟩

/-! # UTF-8 encoding (model of `Buffer.from(string, 'utf-8')`) -/

/-- Standard UTF-8 encoding of one Unicode scalar value. -/
def charUtf8 (c : Char) : List Nat :=
  let n := c.toNat
  if n < 0x80 then [n]
  else if n < 0x800 then [0xc0 + n / 64, 0x80 + n % 64]
  else if n < 0x10000 then [0xe0 + n / 4096, 0x80 + n / 64 % 64, 0x80 + n % 64]
  else [0xf0 + n / 262144, 0x80 + n / 4096 % 64, 0x80 + n / 64 % 64, 0x80 + n % 64]

/-- `Buffer.from(s, 'utf-8')` as a byte list. -/
def utf8Bytes (s : String) : List Nat :=
  (s.data.map charUtf8).flatten

/-! # `Chacha20Cipher` (src/support/chacha20.ts)

The ChaCha20-Poly1305 primitive itself comes from the external library
`@noble/ciphers` (the spec keeps the cryptographic primitives abstract), so
`encrypt` and `decrypt` take the sealing/opening primitive as a function
parameter `key → nonce → aad → data → bytes` and the embedding tracks exactly
the state the source class owns: the two per-direction nonce counters, the
nonce length and the two keys. -/

/-- Type of the abstract AEAD primitive: key, 12-byte nonce, optional
associated data, input bytes. -/
abbrev AeadFn := List Nat → List Nat → Option (List Nat) → List Nat → List Nat

/-- State of `Chacha20Cipher`: per-direction counters, nonce length, keys. -/
structure Chacha20Cipher where
  outCounter : Nat
  inCounter : Nat
  nonceLength : Nat
  outKey : List Nat
  inKey : List Nat

/-- Little-endian bytes of `writeBigUInt64LE` (the source would throw once a
counter reached `2^64`, which the modular reduction here makes total). -/
def u64le (n : Nat) : List Nat :=
  (List.range 8).map fun i => n / 256 ^ i % 256

/-- `buildNonce`: with a 12-byte nonce length the counter is little-endian at
offset 0; with an 8-byte nonce length there are 4 zero bytes of padding then
the little-endian counter at offset 4. -/
def Chacha20Cipher.buildNonce (c : Chacha20Cipher) (counter : Nat) : List Nat :=
  if c.nonceLength = 12 then u64le counter ++ [0, 0, 0, 0]
  else [0, 0, 0, 0] ++ u64le counter

/-- `padNonce`: left-pad a shorter nonce with zeros to 12 bytes. -/
def padNonce (nonce : List Nat) : List Nat :=
  if 12 ≤ nonce.length then nonce
  else List.replicate (12 - nonce.length) 0 ++ nonce

/-- The optional `nonce` argument of `encrypt`/`decrypt`: a `Buffer` or an
ASCII string label. -/
inductive NonceArg where
  | buf (b : List Nat)
  | str (s : String)

/-- `Chacha20Cipher.encrypt`: without an explicit nonce the out-direction
counter nonce is used and `outCounter` is incremented; an explicit nonce is
padded and the counters are untouched. -/
def Chacha20Cipher.encrypt (sealF : AeadFn) (c : Chacha20Cipher) (data : List Nat)
    (nonce : Option NonceArg) (aad : Option (List Nat)) :
    List Nat × Chacha20Cipher :=
  match nonce with
  | none =>
    (sealF c.outKey (c.buildNonce c.outCounter) aad data,
      { c with outCounter := c.outCounter + 1 })
  | some (.str s) => (sealF c.outKey (padNonce (utf8Bytes s)) aad data, c)
  | some (.buf b) => (sealF c.outKey (padNonce b) aad data, c)

/-- `Chacha20Cipher.decrypt`: without an explicit nonce the in-direction
counter nonce is used and `inCounter` is incremented; an explicit nonce is
padded and the counters are untouched. -/
def Chacha20Cipher.decrypt (openF : AeadFn) (c : Chacha20Cipher) (data : List Nat)
    (nonce : Option NonceArg) (aad : Option (List Nat)) :
    List Nat × Chacha20Cipher :=
  match nonce with
  | none =>
    (openF c.inKey (c.buildNonce c.inCounter) aad data,
      { c with inCounter := c.inCounter + 1 })
  | some (.str s) => (openF c.inKey (padNonce (utf8Bytes s)) aad data, c)
  | some (.buf b) => (openF c.inKey (padNonce b) aad data, c)

/-- Claim C6: every counter-based sealing or opening call (no explicit nonce argument)
increments the counter of its own direction by exactly one, so of two
consecutive counter-mode frames in one direction the second is sealed (or
opened) under the nonce for a counter exactly one greater than the first. -/
theorem claim_C6_counter_increment (sealF openF : AeadFn) (c : Chacha20Cipher)
    (d1 d2 : List Nat) (a1 a2 : Option (List Nat)) :
    ((c.encrypt sealF d1 none a1).2.outCounter = c.outCounter + 1 ∧
      (c.encrypt sealF d1 none a1).2.inCounter = c.inCounter) ∧
    ((c.decrypt openF d1 none a1).2.inCounter = c.inCounter + 1 ∧
      (c.decrypt openF d1 none a1).2.outCounter = c.outCounter) ∧
    ((c.encrypt sealF d1 none a1).1 = sealF c.outKey (c.buildNonce c.outCounter) a1 d1 ∧
      (((c.encrypt sealF d1 none a1).2).encrypt sealF d2 none a2).1
        = sealF c.outKey (c.buildNonce (c.outCounter + 1)) a2 d2) ∧
    ((c.decrypt openF d1 none a1).1 = openF c.inKey (c.buildNonce c.inCounter) a1 d1 ∧
      (((c.decrypt openF d1 none a1).2).decrypt openF d2 none a2).1
        = openF c.inKey (c.buildNonce (c.inCounter + 1)) a2 d2) :=
  ⟨⟨rfl, rfl⟩, ⟨rfl, rfl⟩, ⟨rfl, rfl⟩, ⟨rfl, rfl⟩⟩

/-- Claim C10: a call with an explicit nonce (Buffer or ASCII label) leaves the
whole cipher state — both counters in particular — unchanged, and a
counter-based call touches only its own direction's counter. -/
theorem claim_C10_explicit_nonce (sealF openF : AeadFn) (c : Chacha20Cipher)
    (d : List Nat) (n : NonceArg) (a : Option (List Nat)) :
    (c.encrypt sealF d (some n) a).2 = c ∧
    (c.decrypt openF d (some n) a).2 = c ∧
    (c.encrypt sealF d none a).2.inCounter = c.inCounter ∧
    (c.decrypt openF d none a).2.outCounter = c.outCounter := by
  refine ⟨?_, ?_, rfl, rfl⟩ <;> cases n <;> rfl

/-! # Frame types and the transport (connection.ts) -/

/-- The `FrameType` enum of connection.ts — the enum the transport and the
protocol layer actually use. -/
inductive FrameType where
  | unknown
  | noOp
  | psStart
  | psNext
  | pvStart
  | pvNext
  | uOpack
  | eOpack
  | pOpack
  | paReq
  | paRsp
  | sessionStartRequest
  | sessionStartResponse
  | sessionData
  | familyIdentityRequest
  | familyIdentityResponse
  | familyIdentityUpdate

/-- Numeric values of the connection.ts `FrameType` enum. -/
def FrameType.val : FrameType → Nat
  | .unknown => 0
  | .noOp => 1
  | .psStart => 3
  | .psNext => 4
  | .pvStart => 5
  | .pvNext => 6
  | .uOpack => 7
  | .eOpack => 8
  | .pOpack => 9
  | .paReq => 10
  | .paRsp => 11
  | .sessionStartRequest => 16
  | .sessionStartResponse => 17
  | .sessionData => 18
  | .familyIdentityRequest => 32
  | .familyIdentityResponse => 33
  | .familyIdentityUpdate => 34

/-- The separate `FrameType` enum of src/types.ts.  Nothing in the transport
or protocol layer imports it (they import the connection.ts enum). -/
inductive TypesFrameType where
  | noOp
  | psStart
  | psNext
  | pvStart
  | pvNext
  | uOpack
  | eOpack
  | pOpack
  | paReq
  | paRsp
  | sessionData
  | familyIdentityRequest
  | familyIdentityResponse
  | familyIdentityUpdate

/-- Numeric values of the src/types.ts `FrameType` enum. -/
def TypesFrameType.val : TypesFrameType → Nat
  | .noOp => 0x00
  | .psStart => 0x03
  | .psNext => 0x04
  | .pvStart => 0x05
  | .pvNext => 0x06
  | .uOpack => 0x07
  | .eOpack => 0x08
  | .pOpack => 0x09
  | .paReq => 0x0a
  | .paRsp => 0x0b
  | .sessionData => 0x0c
  | .familyIdentityRequest => 0x0d
  | .familyIdentityResponse => 0x0e
  | .familyIdentityUpdate => 0x0f

/-- Claim C4 (counterexample): in the transport's frame-type encoding — the
connection.ts `FrameType` enum used by `CompanionConnection` — the NoOp value
is 1, not 0x00 (0 is `Unknown` there). -/
theorem claim_C4_counterexample :
    FrameType.val FrameType.noOp = 1 ∧ FrameType.val FrameType.noOp ≠ 0x00 :=
  ⟨rfl, by decide⟩

/-- Claim C4 (amended): the transport's enum (connection.ts) assigns
`NoOp = 0x01` and `Unknown = 0x00`; only the transport-unused `FrameType`
enum in src/types.ts assigns `NoOp = 0x00`. -/
theorem claim_C4_amended :
    FrameType.val FrameType.noOp = 1 ∧ FrameType.val FrameType.unknown = 0 ∧
    TypesFrameType.val TypesFrameType.noOp = 0 :=
  ⟨rfl, rfl, rfl⟩

/-- 3-byte big-endian encoding used by `header.writeUIntBE(len, 1, 3)`;
`send` never reaches it with a value of `2 ^ 24` or more (the source would
throw a `RangeError`, which the embedding models by returning `none`). -/
def be3 (n : Nat) : List Nat :=
  [n / 65536 % 256, n / 256 % 256, n % 256]

/-- Decode 3 big-endian bytes (`buffer.readUIntBE(1, 3)` on the header). -/
def readBE3 (l : List Nat) : Nat :=
  match l with
  | [a, b, c] => a * 65536 + b * 256 + c
  | _ => 0

theorem readBE3_be3 (n : Nat) (h : n < 2 ^ 24) : readBE3 (be3 n) = n := by
  simp only [be3, readBE3]
  omega

/-- `CompanionConnection.send`: compute the transmitted length (plus 16 when
keyed and non-empty), build the 4-byte header, seal the payload under the
counter nonce with the header as associated data when keyed and non-empty, and
write `header ++ payload`.  Returns the written bytes and the cipher state
afterward; `none` models the `RangeError` of `writeUIntBE` on an oversized
length. -/
def send (sealF : AeadFn) (chacha : Option Chacha20Cipher) (frameType : FrameType)
    (data : List Nat) : Option (List Nat × Option Chacha20Cipher) :=
  let payloadLength :=
    if chacha.isSome ∧ 0 < data.length then data.length + 16 else data.length
  if payloadLength < 2 ^ 24 then
    let header := frameType.val :: be3 payloadLength
    match chacha with
    | some c =>
      if 0 < data.length then
        let (payload, c2) := c.encrypt sealF data none (some header)
        some (header ++ payload, some c2)
      else some (header ++ data, some c)
    | none => some (header ++ data, none)
  else none

/-- Claim C5: for every frame sent by the transport, if encryption keys are
installed and the plaintext is non-empty then the 3-byte big-endian length
field equals `len(plaintext) + 16` and the payload is the AEAD seal of the
plaintext under the out-direction counter nonce with the 4-byte header as
associated data; otherwise the length field equals `len(plaintext)` and the
payload is the plaintext unchanged. -/
theorem claim_C5_send_format (sealF : AeadFn) (chacha : Option Chacha20Cipher)
    (frameType : FrameType) (data : List Nat)
    (h : data.length + 16 < 2 ^ 24) :
    (∀ c, chacha = some c → data ≠ [] →
      send sealF chacha frameType data
        = some ((frameType.val :: be3 (data.length + 16))
            ++ sealF c.outKey (c.buildNonce c.outCounter)
                 (some (frameType.val :: be3 (data.length + 16))) data,
            some { c with outCounter := c.outCounter + 1 }) ∧
      readBE3 (be3 (data.length + 16)) = data.length + 16) ∧
    ((chacha = none ∨ data = []) →
      send sealF chacha frameType data
        = some ((frameType.val :: be3 data.length) ++ data, chacha) ∧
      readBE3 (be3 data.length) = data.length) := by
  constructor
  · intro c hc hdata
    subst hc
    have hlen : 0 < data.length := List.length_pos.mpr hdata
    refine ⟨?_, readBE3_be3 _ h⟩
    simp only [send, Option.isSome_some, true_and, if_pos hlen, hlen,
      if_pos (show data.length + 16 < 2 ^ 24 from h)]
    simp [Chacha20Cipher.encrypt, hlen]
    omega
  · intro hcase
    have hsmall : data.length < 2 ^ 24 := by omega
    rcases hcase with hc | hd
    · subst hc
      refine ⟨?_, readBE3_be3 _ hsmall⟩
      simp [send, hsmall]
      omega
    · subst hd
      refine ⟨?_, readBE3_be3 _ hsmall⟩
      cases chacha with
      | none => simp [send]
      | some c => simp [send]

/-- Witness for claim C5 at a concrete cipher, seal function and payload. -/
theorem claim_C5_send_format_witness :
    ([9, 9] : List Nat).length + 16 < 2 ^ 24 ∧
    ((∀ c, some (⟨0, 0, 12, [1], [2]⟩ : Chacha20Cipher) = some c → ([9, 9] : List Nat) ≠ [] →
      send (fun _ _ _ d => d ++ List.replicate 16 0)
          (some ⟨0, 0, 12, [1], [2]⟩) FrameType.eOpack [9, 9]
        = some ((FrameType.eOpack.val :: be3 (([9, 9] : List Nat).length + 16))
            ++ (fun _ _ _ d => d ++ List.replicate 16 0) c.outKey
                 (c.buildNonce c.outCounter)
                 (some (FrameType.eOpack.val :: be3 (([9, 9] : List Nat).length + 16))) [9, 9],
            some { c with outCounter := c.outCounter + 1 }) ∧
      readBE3 (be3 (([9, 9] : List Nat).length + 16)) = ([9, 9] : List Nat).length + 16) ∧
    ((some (⟨0, 0, 12, [1], [2]⟩ : Chacha20Cipher) = none ∨ ([9, 9] : List Nat) = []) →
      send (fun _ _ _ d => d ++ List.replicate 16 0)
          (some ⟨0, 0, 12, [1], [2]⟩) FrameType.eOpack [9, 9]
        = some ((FrameType.eOpack.val :: be3 ([9, 9] : List Nat).length) ++ [9, 9],
            some ⟨0, 0, 12, [1], [2]⟩) ∧
      readBE3 (be3 ([9, 9] : List Nat).length) = ([9, 9] : List Nat).length)) :=
  ⟨by decide,
    claim_C5_send_format (fun _ _ _ d => d ++ List.replicate 16 0)
      (some ⟨0, 0, 12, [1], [2]⟩) FrameType.eOpack [9, 9] (by decide)⟩

/-! # SRP auth handler (auth/srp.ts): Pair-Verify step 1 and Pair-Setup step 4

The Ed25519, X25519 and HKDF primitives come from the external library
`@noble/curves` / `@noble/hashes` (the spec keeps the cryptographic primitives
abstract), so they are taken as function parameters. -/

/-- `TlvValue.Identifier` from src/types.ts. -/
def tlvIdentifier : Nat := 0x01

/-- `TlvValue.PublicKey` from src/types.ts. -/
def tlvPublicKey : Nat := 0x03

/-- `TlvValue.Signature` from src/types.ts. -/
def tlvSignature : Nat := 0x0a

/-- `HapCredentials` from auth/credentials.ts. -/
structure HapCredentials where
  ltpk : List Nat
  ltsk : List Nat
  atvId : List Nat
  clientId : List Nat

/-- The `Chacha20Cipher8byteNonce` built by verify1/step3/step4: both keys are
the derived session key and the nonce length is 8. -/
def pairingCipher (sessionKey : List Nat) : Chacha20Cipher :=
  ⟨0, 0, 8, sessionKey, sessionKey⟩

/-- `SRPAuthHandler.verify1`: X25519 exchange with the device's ephemeral
public key, HKDF session key, decrypt the device TLV under the string nonce
"PV-Msg02", check the `Identifier` and `Signature` entries, verify the
signature over `device_eph_pub || device_id || client_eph_pub` under the
stored `device_ltpk`, and only then sign and seal the M3 response under the
string nonce "PV-Msg03".  All failures raise `AuthenticationError`, modelled
as `Except.error`. -/
def verify1 (dh : List Nat → List Nat → List Nat)
    (hkdfE : String → String → List Nat → List Nat)
    (sealF openF : AeadFn)
    (edSign : List Nat → List Nat → List Nat)
    (edVerify : List Nat → List Nat → List Nat → Bool)
    (verifyPriv verifyPub : List Nat)
    (creds : HapCredentials) (sessionPubKey encrypted : List Nat) :
    Except String (List Nat) :=
  let sharedSecret := dh verifyPriv sessionPubKey
  let sessionKey := hkdfE "Pair-Verify-Encrypt-Salt" "Pair-Verify-Encrypt-Info" sharedSecret
  let chacha := pairingCipher sessionKey
  let decryptedTlv := readTlv ((chacha.decrypt openF encrypted (some (.str "PV-Msg02")) none).1)
  match lookupTlv decryptedTlv tlvIdentifier, lookupTlv decryptedTlv tlvSignature with
  | some identifier, some signature =>
    if identifier = creds.atvId then
      if edVerify creds.ltpk (sessionPubKey ++ identifier ++ verifyPub) signature then
        let deviceInfo := verifyPub ++ creds.clientId ++ sessionPubKey
        let deviceSignature := edSign creds.ltsk deviceInfo
        let tlv := writeTlv [(tlvIdentifier, creds.clientId), (tlvSignature, deviceSignature)]
        Except.ok (chacha.encrypt sealF tlv (some (.str "PV-Msg03")) none).1
      else Except.error "AuthenticationError: Signature verification failed"
    else Except.error "AuthenticationError: Incorrect device response"
  | _, _ => Except.error "AuthenticationError: Missing identifier or signature in response"

/-- The TLV map verify1 decrypts: shorthand used to state claim C7. -/
def verify1DecryptedTlv (dh : List Nat → List Nat → List Nat)
    (hkdfE : String → String → List Nat → List Nat)
    (openF : AeadFn) (verifyPriv sessionPubKey encrypted : List Nat) :
    List (Nat × List Nat) :=
  readTlv (((pairingCipher
    (hkdfE "Pair-Verify-Encrypt-Salt" "Pair-Verify-Encrypt-Info"
      (dh verifyPriv sessionPubKey))).decrypt openF encrypted
      (some (.str "PV-Msg02")) none).1)

/-- Claim C7: `verify1` succeeds exactly when the decrypted device TLV carries
an `Identifier` equal to the stored `credentials.atvId` and a `Signature` that
verifies under the stored `device_ltpk` over
`device_eph_pub || device_id || client_eph_pub`; in every other case — the
identifier differs, the signature fails to verify (as any single flipped byte
of `device_ltpk`, `device_eph_pub` or the signature makes it do), or either
entry is missing — it raises `AuthenticationError` and produces no M3
response data. -/
theorem claim_C7_verify1 (dh : List Nat → List Nat → List Nat)
    (hkdfE : String → String → List Nat → List Nat)
    (sealF openF : AeadFn)
    (edSign : List Nat → List Nat → List Nat)
    (edVerify : List Nat → List Nat → List Nat → Bool)
    (verifyPriv verifyPub : List Nat)
    (creds : HapCredentials) (sessionPubKey encrypted : List Nat) :
    (verify1 dh hkdfE sealF openF edSign edVerify verifyPriv verifyPub creds
        sessionPubKey encrypted).isOk = true
    ↔ (lookupTlv (verify1DecryptedTlv dh hkdfE openF verifyPriv sessionPubKey encrypted)
          tlvIdentifier = some creds.atvId ∧
        ∃ sig,
          lookupTlv (verify1DecryptedTlv dh hkdfE openF verifyPriv sessionPubKey encrypted)
              tlvSignature = some sig ∧
          edVerify creds.ltpk (sessionPubKey ++ creds.atvId ++ verifyPub) sig = true) := by
  unfold verify1 verify1DecryptedTlv
  cases hid : lookupTlv
      (readTlv (((pairingCipher
        (hkdfE "Pair-Verify-Encrypt-Salt" "Pair-Verify-Encrypt-Info"
          (dh verifyPriv sessionPubKey))).decrypt openF encrypted
          (some (.str "PV-Msg02")) none).1))
        tlvIdentifier with
  | none =>
    cases hsig : lookupTlv
        (readTlv (((pairingCipher
          (hkdfE "Pair-Verify-Encrypt-Salt" "Pair-Verify-Encrypt-Info"
            (dh verifyPriv sessionPubKey))).decrypt openF encrypted
            (some (.str "PV-Msg02")) none).1))
          tlvSignature with
    | none => simp [hid, hsig, Except.isOk, Except.toBool]
    | some sig => simp [hid, hsig, Except.isOk, Except.toBool]
  | some identifier =>
    cases hsig : lookupTlv
        (readTlv (((pairingCipher
          (hkdfE "Pair-Verify-Encrypt-Salt" "Pair-Verify-Encrypt-Info"
            (dh verifyPriv sessionPubKey))).decrypt openF encrypted
            (some (.str "PV-Msg02")) none).1))
          tlvSignature with
    | none => simp [hid, hsig, Except.isOk, Except.toBool]
    | some sig =>
      by_cases hmatch : identifier = creds.atvId
      · subst hmatch
        cases hver : edVerify creds.ltpk (sessionPubKey ++ creds.atvId ++ verifyPub) sig with
        | true =>
          simp only [List.append_assoc] at hver
          simp [hid, hsig, hver, Except.isOk, Except.toBool]
        | false =>
          simp only [List.append_assoc] at hver
          simp [hid, hsig, hver, Except.isOk, Except.toBool]
      · simp [hid, hsig, hmatch, Except.isOk, Except.toBool]

/-- `SRPAuthHandler`'s pairing id: `Buffer.from(uuidv4())`, the UTF-8 bytes of
the canonical UUID string returned by the external `uuid` library. -/
def mkPairingId (u : String) : List Nat := utf8Bytes u

/-- One character of a canonical UUID string: a lowercase hex digit or a
hyphen. -/
def isUuidChar (c : Char) : Bool :=
  c.toNat == 45 || (48 ≤ c.toNat && c.toNat ≤ 57) || (97 ≤ c.toNat && c.toNat ≤ 102)

/-- Shape of the string returned by the external `uuid` library's `v4()`:
36 characters (32 lowercase hex digits and 4 hyphens). -/
def isUuidLikeString (cs : List Char) : Bool :=
  cs.length == 36 && cs.all isUuidChar

/-- `SRPAuthHandler.step4`: decrypt the device's M6 TLV under the string nonce
"PS-Msg06", require a non-empty plaintext, extract `Identifier` and
`PublicKey`, and assemble the long-term credentials with `clientId` set to the
handler's pairing id. -/
def step4 (openF : AeadFn) (sessionKey signingPriv pairingId encryptedData : List Nat) :
    Except String HapCredentials :=
  let chacha := pairingCipher sessionKey
  let decryptedTlvBytes := (chacha.decrypt openF encryptedData (some (.str "PS-Msg06")) none).1
  if decryptedTlvBytes = [] then
    Except.error "AuthenticationError: Data decrypt failed"
  else
    let decryptedTlv := readTlv decryptedTlvBytes
    match lookupTlv decryptedTlv tlvIdentifier, lookupTlv decryptedTlv tlvPublicKey with
    | some atvIdentifier, some atvPubKey =>
      Except.ok ⟨atvPubKey, signingPriv, atvIdentifier, pairingId⟩
    | _, _ => Except.error "AuthenticationError: Missing identifier or public key in response"

theorem utf8len_ascii (cs : List Char) (h : ∀ c ∈ cs, c.toNat < 128) :
    ((cs.map charUtf8).flatten).length = cs.length := by
  induction cs with
  | nil => rfl
  | cons c cs ih =>
    have hc : c.toNat < 128 := h c (List.mem_cons_self _ _)
    have hcs : ∀ x ∈ cs, x.toNat < 128 := fun x hx => h x (List.mem_cons_of_mem _ hx)
    simp only [List.map_cons, List.flatten_cons, List.length_append, ih hcs]
    have hch : charUtf8 c = [c.toNat] := by
      unfold charUtf8
      simp [hc]
    simp [hch]
    omega

theorem utf8Bytes_length_ascii (s : String) (h : ∀ c ∈ s.data, c.toNat < 128) :
    (utf8Bytes s).length = s.data.length :=
  utf8len_ascii s.data h

theorem uuidChar_ascii (c : Char) (h : isUuidChar c = true) : c.toNat < 128 := by
  unfold isUuidChar at h
  simp only [Bool.or_eq_true, beq_iff_eq, Bool.and_eq_true, decide_eq_true_eq] at h
  omega

/-- Claim C9 (counterexample): a credential set produced by `step4` carries a
`clientId` of 36 bytes — the UTF-8 form of the canonical UUID string — not a
16-byte UUID. -/
theorem claim_C9_counterexample :
    step4 (fun _ _ _ _ => [0x01, 0x01, 0xaa, 0x03, 0x01, 0xbb]) [] []
        (mkPairingId "00000000-0000-4000-8000-000000000000") []
      = Except.ok ⟨[0xbb], [], [0xaa],
          mkPairingId "00000000-0000-4000-8000-000000000000"⟩ ∧
    (mkPairingId "00000000-0000-4000-8000-000000000000").length = 36 ∧
    (mkPairingId "00000000-0000-4000-8000-000000000000").length ≠ 16 := by
  refine ⟨rfl, rfl, by decide⟩

/-- Claim C9 (amended): for every canonical UUID string, every credential set
produced by `step4` has a `clientId` (the pairing id) of exactly 36 bytes, the
UTF-8 encoding of the UUID string. -/
theorem claim_C9_amended (u : String) (hu : isUuidLikeString u.data = true)
    (openF : AeadFn) (sessionKey signingPriv encryptedData : List Nat)
    (creds : HapCredentials)
    (hok : step4 openF sessionKey signingPriv (mkPairingId u) encryptedData
      = Except.ok creds) :
    creds.clientId = mkPairingId u ∧ creds.clientId.length = 36 := by
  have hclient : creds.clientId = mkPairingId u := by
    unfold step4 at hok
    by_cases hempty :
        ((pairingCipher sessionKey).decrypt openF encryptedData
          (some (.str "PS-Msg06")) none).1 = []
    · simp [hempty] at hok
    · rw [if_neg hempty] at hok
      cases hid : lookupTlv
          (readTlv (((pairingCipher sessionKey).decrypt openF encryptedData
            (some (.str "PS-Msg06")) none).1)) tlvIdentifier with
      | none => simp [hid] at hok
      | some atvIdentifier =>
        cases hpk : lookupTlv
            (readTlv (((pairingCipher sessionKey).decrypt openF encryptedData
              (some (.str "PS-Msg06")) none).1)) tlvPublicKey with
        | none => simp [hid, hpk] at hok
        | some atvPubKey =>
          simp only [hid, hpk] at hok
          cases hok
          rfl
  refine ⟨hclient, ?_⟩
  rw [hclient]
  unfold isUuidLikeString at hu
  simp only [Bool.and_eq_true, beq_iff_eq, List.all_eq_true] at hu
  unfold mkPairingId
  rw [utf8Bytes_length_ascii u (fun c hc => uuidChar_ascii c (hu.2 c hc))]
  exact hu.1

/-- Witness for the amended claim C9 at a concrete UUID string and inputs. -/
theorem claim_C9_amended_witness :
    isUuidLikeString ("123e4567-e89b-42d3-a456-426614174000" : String).data = true ∧
    step4 (fun _ _ _ _ => [0x01, 0x01, 0xcc, 0x03, 0x01, 0xdd]) [1] [2]
        (mkPairingId "123e4567-e89b-42d3-a456-426614174000") [3]
      = Except.ok ⟨[0xdd], [2], [0xcc],
          mkPairingId "123e4567-e89b-42d3-a456-426614174000"⟩ ∧
    (mkPairingId "123e4567-e89b-42d3-a456-426614174000").length = 36 := by
  refine ⟨by decide, rfl, ?_⟩
  exact (claim_C9_amended "123e4567-e89b-42d3-a456-426614174000" (by decide)
    (fun _ _ _ _ => [0x01, 0x01, 0xcc, 0x03, 0x01, 0xdd]) [1] [2] [3] _ rfl).2

/-! # OPACK codec (src/support/opack.ts)

`pack` takes a value tree (`PValue`, covering the JavaScript value fragment the
codec supports except floats and `Date`, which no claim about this development
exercises) and threads the encoder's back-reference table of previously
emitted encodings.  `unpack` decodes into `UValue`, which additionally has
`undef` (a JavaScript `undefined` — the result of a back-reference whose index
is absent from the decode table) and raw-byte float carriers.  The recursive
descent is driven by a fuel argument seeded above the recursion depth, keeping
every definition structurally recursive and kernel-computable. -/

/-!
Input values of `pack` (the JavaScript fragment: null/undefined, boolean,
integer `number`, `SizedInt`, string, `Buffer`/`Uint8Array`, tagged UUID
array, `Array`, plain object).  Non-integer `number` (float64) and `Date` are
outside the fragment.  Arrays and objects carry their children through the
mutual types `PValues`/`PEntries` so the codec recursion is structural.
-/

mutual
inductive PValue where
  | pnull
  | pbool (b : Bool)
  | pint (n : Nat)
  | psized (value : Nat) (size : Nat)
  | pstr (s : String)
  | pbytes (b : List Nat)
  | puuid (b : List Nat)
  | parr (xs : PValues)
  | pdict (kvs : PEntries)
inductive PValues where
  | nil
  | cons (v : PValue) (rest : PValues)
inductive PEntries where
  | nil
  | cons (k : String) (v : PValue) (rest : PEntries)
end

/-- Number of elements of a `PValues`. -/
def PValues.length : PValues → Nat
  | .nil => 0
  | .cons _ rest => 1 + rest.length

/-- Number of entries of a `PEntries`. -/
def PEntries.length : PEntries → Nat
  | .nil => 0
  | .cons _ _ rest => 1 + rest.length

/-- `k` little-endian bytes of `n` (the `writeUIntLE` family; the source
throws a `RangeError` on an out-of-width value, which the modular reduction
makes total — claims only exercise in-range values). -/
def leBytes (k n : Nat) : List Nat :=
  (List.range k).map fun i => n / 256 ^ i % 256

/-- `packInteger(value, sizeHint)`; `sizeHint = 0` plays the role of the
falsy JavaScript `null` (and of the equally falsy hint `0`). -/
def packInteger (value : Nat) (sizeHint : Nat) : List Nat :=
  if value < 0x28 ∧ sizeHint = 0 then [value + 8]
  else if (value ≤ 0xff ∧ sizeHint = 0) ∨ sizeHint = 1 then 0x30 :: leBytes 1 value
  else if (value ≤ 0xffff ∧ sizeHint = 0) ∨ sizeHint = 2 then 0x31 :: leBytes 2 value
  else if (value ≤ 0xffffffff ∧ sizeHint = 0) ∨ sizeHint = 4 then 0x32 :: leBytes 4 value
  else 0x33 :: leBytes 8 value

/-- `packString`: UTF-8 encode and prefix with the length form. -/
def packString (s : String) : List Nat :=
  let encoded := utf8Bytes s
  let len := encoded.length
  if len ≤ 0x20 then (0x40 + len) :: encoded
  else if len ≤ 0xff then 0x61 :: (leBytes 1 len ++ encoded)
  else if len ≤ 0xffff then 0x62 :: (leBytes 2 len ++ encoded)
  else if len ≤ 0xffffff then 0x63 :: (leBytes 3 len ++ encoded)
  else 0x64 :: (leBytes 4 len ++ encoded)

/-- `packBytes`: raw bytes with the length form. -/
def packBytes (b : List Nat) : List Nat :=
  let len := b.length
  if len ≤ 0x20 then (0x70 + len) :: b
  else if len ≤ 0xff then 0x91 :: (leBytes 1 len ++ b)
  else if len ≤ 0xffff then 0x92 :: (leBytes 2 len ++ b)
  else if len ≤ 0xffffffff then 0x93 :: (leBytes 4 len ++ b)
  else 0x94 :: (leBytes 8 len ++ b)

/-- The object-reference deduplication tail of `packInternal`: search the
table for a byte-identical prior encoding and emit a back-reference if found
(the source leaves `packedBytes` unchanged and pushes nothing for an index
above `0xffffffff`); otherwise append the encoding to the table when it is
longer than one byte. -/
def dedupAppend (packedBytes : List Nat) (objectList : List (List Nat)) :
    List Nat × List (List Nat) :=
  match List.findIdx? (fun b => b == packedBytes) objectList with
  | some i =>
    (if i < 0x21 then [0xa0 + i]
     else if i ≤ 0xff then 0xc1 :: leBytes 1 i
     else if i ≤ 0xffff then 0xc2 :: leBytes 2 i
     else if i ≤ 0xffffffff then 0xc3 :: leBytes 4 i
     else packedBytes,
     objectList)
  | none =>
    if 1 < packedBytes.length then (packedBytes, objectList ++ [packedBytes])
    else (packedBytes, objectList)

/-!
`packInternal` encodes one value, then applies the deduplication tail to the
table as mutated by the children: arrays and dictionaries encode their
children first, against the current table (`packItems` is the
`data.map((item) => packInternal(item, objectList))` of `packArray`, and
`packEntries` the key/value loop of `packDict`, where each string key goes
through `packInternal` itself — string encoding plus the deduplication tail).
-/

mutual
def packInternal : PValue → List (List Nat) → List Nat × List (List Nat)
  | .pnull, objectList => dedupAppend [0x04] objectList
  | .pbool b, objectList => dedupAppend [if b then 0x01 else 0x02] objectList
  | .puuid b, objectList => dedupAppend (0x05 :: b) objectList
  | .psized value size, objectList => dedupAppend (packInteger value size) objectList
  | .pint n, objectList => dedupAppend (packInteger n 0) objectList
  | .pstr s, objectList => dedupAppend (packString s) objectList
  | .pbytes b, objectList => dedupAppend (packBytes b) objectList
  | .parr xs, objectList =>
    let count := min xs.length 0xf
    let (items, tbl1) := packItems xs objectList
    let res := (0xd0 + count) :: items
    dedupAppend (if 0xf ≤ xs.length then res ++ [0x03] else res) tbl1
  | .pdict kvs, objectList =>
    let count := min kvs.length 0xf
    let (items, tbl1) := packEntries kvs objectList
    let res := (0xe0 + count) :: items
    dedupAppend (if 0xf ≤ kvs.length then res ++ [0x03] else res) tbl1

def packItems : PValues → List (List Nat) → List Nat × List (List Nat)
  | .nil, tbl => ([], tbl)
  | .cons v rest, tbl =>
    let (b, tbl1) := packInternal v tbl
    let (bs, tbl2) := packItems rest tbl1
    (b ++ bs, tbl2)

def packEntries : PEntries → List (List Nat) → List Nat × List (List Nat)
  | .nil, tbl => ([], tbl)
  | .cons k v rest, tbl =>
    let (kb, tbl1) := dedupAppend (packString k) tbl
    let (vb, tbl2) := packInternal v tbl1
    let (bs, tbl3) := packEntries rest tbl2
    (kb ++ vb ++ bs, tbl3)
end

/-- `pack` together with the final state of the encoder's back-reference
table. -/
def packFull (v : PValue) : List Nat × List (List Nat) :=
  packInternal v []

/-- `pack` from src/support/opack.ts. -/
def pack (v : PValue) : List Nat :=
  (packFull v).1

/-!
Decoded values of `unpack`.  `undef` is the JavaScript `undefined` that a
back-reference produces when its index is absent from the decode table.
Floats are carried as their raw little-endian bytes (`f32`/`f64`): numeric
float semantics is outside the embedding and nothing here exercises it.
-/

inductive UValue where
  | null
  | undef
  | bool (b : Bool)
  | int (n : Nat)
  | sizedInt (value : Nat) (size : Nat)
  | str (s : String)
  | bytes (b : List Nat)
  | f32 (raw : List Nat)
  | f64 (raw : List Nat)
  | arr (xs : List UValue)
  | dict (kvs : List (String × UValue))

/-- Lowercase hex digit. -/
def hexDigitChar (n : Nat) : Char :=
  if n < 10 then Char.ofNat (48 + n) else Char.ofNat (87 + n)

/-- `buffer.toString('hex')` (used by the UUID decode branch). -/
def hexStr (b : List Nat) : String :=
  ⟨(b.map fun x => [hexDigitChar (x / 16 % 16), hexDigitChar (x % 16)]).flatten⟩

/-- UTF-8 continuation byte. -/
def isContByte (b : Nat) : Bool := 0x80 ≤ b && b ≤ 0xbf

/-- Allowed first continuation byte of a 3-byte sequence (excludes overlong
encodings and surrogates). -/
def isCont3First (b b1 : Nat) : Bool :=
  if b == 0xe0 then 0xa0 ≤ b1 && b1 ≤ 0xbf
  else if b == 0xed then 0x80 ≤ b1 && b1 ≤ 0x9f
  else isContByte b1

/-- Allowed first continuation byte of a 4-byte sequence. -/
def isCont4First (b b1 : Nat) : Bool :=
  if b == 0xf0 then 0x90 ≤ b1 && b1 ≤ 0xbf
  else if b == 0xf4 then 0x80 ≤ b1 && b1 ≤ 0x8f
  else isContByte b1

/-- `buffer.toString('utf-8')`: decode UTF-8, exact on valid sequences (which
is all this development evaluates); on invalid sequences it emits U+FFFD and
resumes after the offending lead byte, an approximation of the WHATWG
maximal-subpart rule. -/
def utf8DecodeCharsAux : Nat → List Nat → List Char
  | 0, _ => []
  | _ + 1, [] => []
  | fuel + 1, b :: rest =>
    if b < 0x80 then Char.ofNat b :: utf8DecodeCharsAux fuel rest
    else if 0xc2 ≤ b && b ≤ 0xdf then
      match rest with
      | b1 :: rest1 =>
        if isContByte b1 then
          Char.ofNat ((b - 0xc0) * 64 + (b1 - 0x80)) :: utf8DecodeCharsAux fuel rest1
        else Char.ofNat 0xfffd :: utf8DecodeCharsAux fuel rest
      | [] => [Char.ofNat 0xfffd]
    else if 0xe0 ≤ b && b ≤ 0xef then
      match rest with
      | b1 :: b2 :: rest2 =>
        if isCont3First b b1 && isContByte b2 then
          Char.ofNat ((b - 0xe0) * 4096 + (b1 - 0x80) * 64 + (b2 - 0x80))
            :: utf8DecodeCharsAux fuel rest2
        else Char.ofNat 0xfffd :: utf8DecodeCharsAux fuel rest
      | _ => [Char.ofNat 0xfffd]
    else if 0xf0 ≤ b && b ≤ 0xf4 then
      match rest with
      | b1 :: b2 :: b3 :: rest3 =>
        if isCont4First b b1 && isContByte b2 && isContByte b3 then
          Char.ofNat ((b - 0xf0) * 262144 + (b1 - 0x80) * 4096
              + (b2 - 0x80) * 64 + (b3 - 0x80))
            :: utf8DecodeCharsAux fuel rest3
        else Char.ofNat 0xfffd :: utf8DecodeCharsAux fuel rest
      | _ => [Char.ofNat 0xfffd]
    else Char.ofNat 0xfffd :: utf8DecodeCharsAux fuel rest

/-- `buffer.toString('utf-8')` as a `String` (every decoding step consumes at
least one byte, so `b.length + 1` fuel suffices). -/
def utf8Decode (b : List Nat) : String :=
  ⟨utf8DecodeCharsAux (b.length + 1) b⟩

/-- Little-endian value of a byte list (first byte least significant). -/
def leNum (bytes : List Nat) : Nat :=
  bytes.foldr (fun b acc => acc * 256 + b) 0

/-- The `readUInt8/16/32LE`, `readUIntLE(1, 3)` and `readBigUInt64LE` family:
`k` little-endian bytes starting after the tag, `none` modelling the
`RangeError` the source throws when fewer than `k` bytes remain. -/
def readLE (k : Nat) (rest : List Nat) : Option Nat :=
  if rest.length < k then none else some (leNum (rest.take k))

/-- `objectList.includes(value)` under SameValueZero, as reachable from the
decoder: strings and numbers (decoded absolute-time integers) compare by
value, as does `undefined`; `SizedInt` instances, Buffers, arrays and plain
objects compare by reference, so a freshly constructed one is never found and
a table hit through a back-reference is handled by the `fromTable` flag at the
call site.  Floats compare by their raw bytes, which differs from value
comparison only on the positive/negative zero and NaN bit patterns and is never exercised
here. -/
def includesSameValue (tbl : List UValue) (v : UValue) : Bool :=
  match v with
  | .str s => tbl.any fun w => match w with | .str t => t == s | _ => false
  | .int n => tbl.any fun w => match w with | .int m => m == n | _ => false
  | .undef => tbl.any fun w => match w with | .undef => true | _ => false
  | .f32 raw => tbl.any fun w => match w with | .f32 r => r == raw | _ => false
  | .f64 raw => tbl.any fun w => match w with | .f64 r => r == raw | _ => false
  | _ => false

/-- The final `if (addToObjectList && !objectList.includes(value))` push of
`unpackInternal`. -/
def pushDecoded (tbl : List UValue) (v : UValue) (addFlag fromTable : Bool) :
    List UValue :=
  if addFlag && !fromTable && !includesSameValue tbl v then tbl ++ [v] else tbl

/-- JavaScript `String(key)` for the decoded dictionary keys.  Strings,
numbers, `SizedInt` (via its `toString`), booleans, `null` and `undefined`
are modelled exactly; Buffers stringify as UTF-8; a plain object gives
"[object Object]".  Floats and arrays are represented by placeholders — their
JavaScript stringifications (decimal form, comma-joined elements) are outside
the fragment anything here exercises. -/
def jsString : UValue → String
  | .str s => s
  | .int n => toString n
  | .sizedInt value _ => toString value
  | .bool b => if b then "true" else "false"
  | .null => "null"
  | .undef => "undefined"
  | .f32 _ => "[float]"
  | .f64 _ => "[float]"
  | .bytes b => utf8Decode b
  | .arr _ => "[array]"
  | .dict _ => "[object Object]"

/-- `output[String(key)] = val` on a JavaScript object: an existing key keeps
its position and is overwritten, a new key is appended. -/
def jsObjectSet : List (String × UValue) → String → UValue → List (String × UValue)
  | [], k, v => [(k, v)]
  | (k0, v0) :: rest, k, v =>
    if k0 == k then (k0, v) :: rest else (k0, v0) :: jsObjectSet rest k v

/-- Result triple of one decoding step: value, remaining bytes, decode
table. -/
abbrev UnpackStep := List Nat → List UValue → Except String (UValue × List Nat × List UValue)

/-- The counted-item loop of the array branch. -/
def unpackCountedItems (f : UnpackStep) :
    Nat → List Nat → List UValue → Except String (List UValue × List Nat × List UValue)
  | 0, data, tbl => Except.ok ([], data, tbl)
  | n + 1, data, tbl =>
    match f data tbl with
    | Except.error e => Except.error e
    | Except.ok (v, rest, tbl1) =>
      match unpackCountedItems f n rest tbl1 with
      | Except.error e => Except.error e
      | Except.ok (vs, rest2, tbl2) => Except.ok (v :: vs, rest2, tbl2)

/-- The `while (ptr[0] !== 0x03)` loop of the endless-array branch; the fuel
bounds the iteration count (each item consumes at least one byte). -/
def unpackEndlessItems (f : UnpackStep) :
    Nat → List Nat → List UValue → Except String (List UValue × List Nat × List UValue)
  | 0, _, _ => Except.error "out of fuel"
  | fuel + 1, data, tbl =>
    match data with
    | 3 :: rest => Except.ok ([], rest, tbl)
    | _ =>
      match f data tbl with
      | Except.error e => Except.error e
      | Except.ok (v, rest, tbl1) =>
        match unpackEndlessItems f fuel rest tbl1 with
        | Except.error e => Except.error e
        | Except.ok (vs, rest2, tbl2) => Except.ok (v :: vs, rest2, tbl2)

/-- The counted key/value loop of the dictionary branch. -/
def unpackCountedPairs (f : UnpackStep) :
    Nat → List Nat → List UValue → List (String × UValue) →
    Except String (List (String × UValue) × List Nat × List UValue)
  | 0, data, tbl, output => Except.ok (output, data, tbl)
  | n + 1, data, tbl, output =>
    match f data tbl with
    | Except.error e => Except.error e
    | Except.ok (key, rest1, tbl1) =>
      match f rest1 tbl1 with
      | Except.error e => Except.error e
      | Except.ok (val, rest2, tbl2) =>
        unpackCountedPairs f n rest2 tbl2 (jsObjectSet output (jsString key) val)

/-- The endless key/value loop of the dictionary branch. -/
def unpackEndlessPairs (f : UnpackStep) :
    Nat → List Nat → List UValue → List (String × UValue) →
    Except String (List (String × UValue) × List Nat × List UValue)
  | 0, _, _, _ => Except.error "out of fuel"
  | fuel + 1, data, tbl, output =>
    match data with
    | 3 :: rest => Except.ok (output, rest, tbl)
    | _ =>
      match f data tbl with
      | Except.error e => Except.error e
      | Except.ok (key, rest1, tbl1) =>
        match f rest1 tbl1 with
        | Except.error e => Except.error e
        | Except.ok (val, rest2, tbl2) =>
          unpackEndlessPairs f fuel rest2 tbl2 (jsObjectSet output (jsString key) val)

/-- The short and long back-reference branches: the value at the index, or
`undefined` when the index is absent from the table (the decode table never
holds composites, so an encoder back-reference to a composite lands out of
range or on the wrong entry). -/
def backrefResult (objectList : List UValue) (index : Nat) (remaining : List Nat) :
    Except String (UValue × List Nat × List UValue) :=
  if index < objectList.length then
    let v := objectList.getD index UValue.undef
    Except.ok (v, remaining, pushDecoded objectList v true true)
  else
    Except.ok (UValue.undef, remaining, pushDecoded objectList UValue.undef true false)

/-- `unpackInternal`: one decoding step, mirroring the source tag dispatch in
order.  The fuel bounds the recursion depth plus the endless-loop iteration
counts; every nested call consumes at least one byte, so
`2 * data.length + 8` always suffices and the fuel-exhaustion error is
unreachable from `unpack`. -/
def unpackInternal : Nat → List Nat → List UValue →
    Except String (UValue × List Nat × List UValue)
  | 0, _, _ => Except.error "out of fuel"
  | fuel + 1, data, objectList =>
    match data with
    | [] => Except.error "Unknown OPACK tag: undefined"
    | tag :: rest =>
      if tag == 0x01 then Except.ok (UValue.bool true, rest, objectList)
      else if tag == 0x02 then Except.ok (UValue.bool false, rest, objectList)
      else if tag == 0x04 then Except.ok (UValue.null, rest, objectList)
      else if tag == 0x05 then
        let v := UValue.str (hexStr (rest.take 16))
        Except.ok (v, rest.drop 16, pushDecoded objectList v true false)
      else if tag == 0x06 then
        match readLE 8 rest with
        | none => Except.error "RangeError"
        | some n =>
          let v := UValue.int n
          Except.ok (v, rest.drop 8, pushDecoded objectList v true false)
      else if 0x08 ≤ tag && tag ≤ 0x2f then
        Except.ok (UValue.int (tag - 8), rest, objectList)
      else if tag == 0x35 then
        if rest.length < 4 then Except.error "RangeError"
        else
          let v := UValue.f32 (rest.take 4)
          Except.ok (v, rest.drop 4, pushDecoded objectList v true false)
      else if tag == 0x36 then
        if rest.length < 8 then Except.error "RangeError"
        else
          let v := UValue.f64 (rest.take 8)
          Except.ok (v, rest.drop 8, pushDecoded objectList v true false)
      else if tag &&& 0xf0 == 0x30 then
        let numBytes := 1 <<< (tag &&& 0xf)
        let readWidth :=
          if numBytes == 1 then 1 else if numBytes == 2 then 2
          else if numBytes == 4 then 4 else 8
        match readLE readWidth rest with
        | none => Except.error "RangeError"
        | some n =>
          let v := UValue.sizedInt n numBytes
          Except.ok (v, rest.drop numBytes, pushDecoded objectList v true false)
      else if 0x40 ≤ tag && tag ≤ 0x60 then
        let len := tag - 0x40
        let v := UValue.str (utf8Decode (rest.take len))
        Except.ok (v, rest.drop len, pushDecoded objectList v true false)
      else if 0x60 < tag && tag ≤ 0x64 then
        let numBytes := tag &&& 0xf
        match readLE numBytes rest with
        | none => Except.error "RangeError"
        | some len =>
          let v := UValue.str (utf8Decode ((rest.drop numBytes).take len))
          Except.ok (v, (rest.drop numBytes).drop len, pushDecoded objectList v true false)
      else if 0x70 ≤ tag && tag ≤ 0x90 then
        let len := tag - 0x70
        let v := UValue.bytes (rest.take len)
        Except.ok (v, rest.drop len, pushDecoded objectList v true false)
      else if 0x91 ≤ tag && tag ≤ 0x94 then
        let numBytes := 1 <<< ((tag &&& 0xf) - 1)
        match readLE numBytes rest with
        | none => Except.error "RangeError"
        | some len =>
          let v := UValue.bytes ((rest.drop numBytes).take len)
          Except.ok (v, (rest.drop numBytes).drop len, pushDecoded objectList v true false)
      else if tag &&& 0xf0 == 0xd0 then
        let count := tag &&& 0xf
        if count == 0xf then
          match unpackEndlessItems (unpackInternal fuel) fuel rest objectList with
          | Except.error e => Except.error e
          | Except.ok (items, rest2, tbl2) => Except.ok (UValue.arr items, rest2, tbl2)
        else
          match unpackCountedItems (unpackInternal fuel) count rest objectList with
          | Except.error e => Except.error e
          | Except.ok (items, rest2, tbl2) => Except.ok (UValue.arr items, rest2, tbl2)
      else if tag &&& 0xe0 == 0xe0 then
        let count := tag &&& 0xf
        if count == 0xf then
          match unpackEndlessPairs (unpackInternal fuel) fuel rest objectList [] with
          | Except.error e => Except.error e
          | Except.ok (entries, rest2, tbl2) => Except.ok (UValue.dict entries, rest2, tbl2)
        else
          match unpackCountedPairs (unpackInternal fuel) count rest objectList [] with
          | Except.error e => Except.error e
          | Except.ok (entries, rest2, tbl2) => Except.ok (UValue.dict entries, rest2, tbl2)
      else if 0xa0 ≤ tag && tag ≤ 0xc0 then
        backrefResult objectList (tag - 0xa0) rest
      else if 0xc1 ≤ tag && tag ≤ 0xc4 then
        let numBytes := tag - 0xc0
        match readLE numBytes rest with
        | none => Except.error "RangeError"
        | some index => backrefResult objectList index (rest.drop numBytes)
      else Except.error "Unknown OPACK tag"

/-- `unpack` from src/support/opack.ts: decoded value and remaining bytes. -/
def unpack (data : List Nat) : Except String (UValue × List Nat) :=
  match unpackInternal (2 * data.length + 8) data [] with
  | Except.error e => Except.error e
  | Except.ok (v, rest, _) => Except.ok (v, rest)

/-- Claim C1 (code bug, evaluated at the failing input): packing the value
`["", "a", "a"]` emits `d3 40 41 61 a0` — the empty string's one-byte encoding
`40` is never added to the encoder's back-reference table, so the repeated
"a" gets back-reference index 0 — but the decoder adds the decoded empty
string to its table (its `addToObjectList` flag ignores the one-byte encoding
length), so index 0 resolves to `""` and the round trip returns
`["", "a", ""]` instead of `["", "a", "a"]`. -/
theorem claim_C1_roundtrip_fails :
    pack (.parr (.cons (.pstr "") (.cons (.pstr "a") (.cons (.pstr "a") .nil))))
      = [0xd3, 0x40, 0x41, 0x61, 0xa0] ∧
    unpack [0xd3, 0x40, 0x41, 0x61, 0xa0]
      = Except.ok (.arr [.str "", .str "a", .str ""], []) ∧
    UValue.str "" ≠ UValue.str "a" := by
  refine ⟨rfl, rfl, ?_⟩
  intro h
  injection h with h1
  exact absurd h1 (by decide)

/-- Claim C2 (code bug, evaluated at the failing input): the encoder DOES add
array encodings to its back-reference table — after packing `[true]` the table
holds its encoding `d1 01` — so packing `[[true], [true]]` emits the
back-reference `a0` for the second `[true]`.  The decoder never adds arrays to
its table, so at decode time index 0 is undefined and the back-reference
yields JavaScript `undefined`: the decoded value is `[[true], undefined]`. -/
theorem claim_C2_backref_undefined :
    (packFull (.parr (.cons (.pbool true) .nil))).2 = [[0xd1, 0x01]] ∧
    pack (.parr (.cons (.parr (.cons (.pbool true) .nil))
        (.cons (.parr (.cons (.pbool true) .nil)) .nil)))
      = [0xd2, 0xd1, 0x01, 0xa0] ∧
    unpack [0xd2, 0xd1, 0x01, 0xa0]
      = Except.ok (.arr [.arr [.bool true], .undef], []) :=
  ⟨rfl, rfl, rfl⟩

end AtvCompanion
